import Mathlib

/-!
Verification of the Among-Us-AI memory-reader core against its specification.

The development shallowly embeds the python sources:
  * `amongus_reader_2.2/amongus_reader/il2cpp/scan.py`  (`Il2CppScanner`)
  * `amongus_reader/core/memory.py`                     (`MemoryClient`)
  * `amongus_reader/service/data_service.py`            (`AmongUsDataService`)
  * `amongus_reader/il2cpp/meta.py`                     (`MetaIndex`)
  * `amongus_reader/cache/manager.py`                   (`CacheManager`)

Machine reads that may raise in python are modelled as `Option`-valued
accessor functions (`none` models a raised read error); wall-clock time is
modelled as an explicit stream of clock samples consumed tick by tick; where a
claim speaks about which backend reads happen, the embedding additionally
threads an explicit read log.
-/

namespace AmongUs

/-- Abstract view of `MemoryClient` as the scanner uses it: module base,
pointer width, and the typed reads.  A read returning `none` models the python
read raising an exception. -/
structure Accessor where
  base : Nat
  is_64 : Bool
  read_ptr : Nat → Option Nat
  readU32 : Nat → Option Nat
  readI32 : Nat → Option Int
  readF32 : Nat → Option ℚ
  heap_regions : List (Nat × Nat)

/-- Pointer stride: 8 bytes on 64-bit, 4 on 32-bit (`8 if self.memory.is_64 else 4`). -/
def Accessor.step (m : Accessor) : Nat := if m.is_64 then 8 else 4

/-- Python `range(start, stop, step)` for a positive step over naturals. -/
def pyRange (start stop step : Nat) : List Nat :=
  (List.range ((stop - start + step - 1) / step)).map (fun i => start + i * step)

theorem pyRange_pairwise_le (start stop step : Nat) :
    (pyRange start stop step).Pairwise (· ≤ ·) := by
  unfold pyRange
  refine List.Pairwise.map _ ?_ (List.pairwise_lt_range _)
  intro a b hab
  exact Nat.add_le_add_left (Nat.mul_le_mul_right step (Nat.le_of_lt hab)) start

namespace Il2CppScanner

/-- Loop body of `Il2CppScanner.scan_fields_for_class`: walk the slot list; at
each slot read the stored pointer, and if it is non-null and its own first
word reads back as the target class, return the stored pointer. -/
def scanFieldsGo (m : Accessor) (targetKlass : Nat) : List Nat → Nat
  | [] => 0
  | cur :: rest =>
    match m.read_ptr cur with
    | none => scanFieldsGo m targetKlass rest
    | some ptr =>
      if ptr = 0 then scanFieldsGo m targetKlass rest
      else
        match m.read_ptr ptr with
        | none => scanFieldsGo m targetKlass rest
        | some k => if k = targetKlass then ptr else scanFieldsGo m targetKlass rest

/-- Embedding of `Il2CppScanner.scan_fields_for_class` (scan.py lines 48-60). -/
def scan_fields_for_class (m : Accessor) (fields_base span_bytes target_klass : Nat) : Nat :=
  scanFieldsGo m target_klass (pyRange fields_base (fields_base + span_bytes) m.step)

/-- A slot matches when its stored pointer is non-null and dereferences to the
target class descriptor (both reads succeeding). -/
def slotMatches (m : Accessor) (targetKlass cur : Nat) : Bool :=
  match m.read_ptr cur with
  | none => false
  | some ptr => (!(ptr = 0)) && (m.read_ptr ptr == some targetKlass)

theorem scanFieldsGo_eq_find (m : Accessor) (t : Nat) (l : List Nat) :
    scanFieldsGo m t l =
      match l.find? (slotMatches m t) with
      | some cur => (m.read_ptr cur).getD 0
      | none => 0 := by
  induction l with
  | nil => rfl
  | cons cur rest ih =>
    rw [scanFieldsGo, List.find?]
    rcases hr : m.read_ptr cur with _ | ptr
    · have hm : slotMatches m t cur = false := by simp [slotMatches, hr]
      simp [hr, hm, ih]
    · by_cases hz : ptr = 0
      · have hm : slotMatches m t cur = false := by simp [slotMatches, hr, hz]
        simp [hr, hz, hm, ih]
      · rcases hk : m.read_ptr ptr with _ | k
        · have hm : slotMatches m t cur = false := by simp [slotMatches, hr, hz, hk]
          simp [hr, hz, hk, hm, ih]
        · by_cases ht : k = t
          · have hm : slotMatches m t cur = true := by simp [slotMatches, hr, hz, hk, ht]
            simp [hr, hz, hk, ht, hm]
          · have hm : slotMatches m t cur = false := by simp [slotMatches, hr, hz, hk, ht]
            simp [hr, hz, hk, ht, hm, ih]

theorem find?_is_lowest {l : List Nat} {p : Nat → Bool} {x : Nat}
    (hsorted : l.Pairwise (· ≤ ·)) (hfind : l.find? p = some x) :
    ∀ y ∈ l, p y = true → x ≤ y := by
  induction l with
  | nil => cases hfind
  | cons a rest ih =>
    rcases List.pairwise_cons.1 hsorted with ⟨hle, hrest⟩
    by_cases ha : p a = true
    · rw [List.find?, ha] at hfind
      cases hfind
      intro y hy _
      rcases List.mem_cons.1 hy with h | h
      · omega
      · exact hle y h
    · rw [List.find?] at hfind
      rw [Bool.not_eq_true] at ha
      rw [ha] at hfind
      intro y hy hpy
      rcases List.mem_cons.1 hy with h | h
      · rw [h] at hpy; rw [hpy] at ha; cases ha
      · exact ih hrest hfind y h hpy

end Il2CppScanner

/-- Finite concrete memory for witnesses: pointer reads served from an
association list, all other reads fail. -/
def assocRead (ps : List (Nat × Nat)) : Nat → Option Nat :=
  fun a => (ps.find? (fun p => p.1 == a)).map Prod.snd

/-- Build a concrete accessor from an association list of pointer slots. -/
def mkAccessor (b : Nat) (w : Bool) (ptrs : List (Nat × Nat)) : Accessor where
  base := b
  is_64 := w
  read_ptr := assocRead ptrs
  readU32 := fun _ => none
  readI32 := fun _ => none
  readF32 := fun _ => none
  heap_regions := []

namespace Il2CppScanner

/-- C1 (amended): when the stride scan has a matching slot, `scan_fields_for_class`
returns the pointer *stored in* the first (lowest-addressed) matching slot — the
matched object's address — not the slot's own address; the returned pointer is
non-null and dereferences to the target class, and the chosen slot is the
lowest-addressed match. -/
theorem scan_fields_for_class_spec (m : Accessor) (b span tgt cur : Nat)
    (hfind : (pyRange b (b + span) m.step).find? (slotMatches m tgt) = some cur) :
    (∃ p, m.read_ptr cur = some p ∧ p ≠ 0 ∧ m.read_ptr p = some tgt ∧
        scan_fields_for_class m b span tgt = p) ∧
    (∀ cur' ∈ pyRange b (b + span) m.step, slotMatches m tgt cur' = true → cur ≤ cur') := by
  constructor
  · have hm : slotMatches m tgt cur = true := List.find?_some hfind
    unfold slotMatches at hm
    rcases hr : m.read_ptr cur with _ | ptr
    · rw [hr] at hm; cases hm
    · rw [hr] at hm
      simp only [Bool.and_eq_true, Bool.not_eq_true', beq_iff_eq, decide_eq_false_iff_not] at hm
      refine ⟨ptr, rfl, ?_, ?_, ?_⟩
      · intro h0
        rcases hm with ⟨h1, _⟩
        simp [h0] at h1
      · rcases hm with ⟨_, h2⟩
        exact h2
      · unfold scan_fields_for_class
        rw [scanFieldsGo_eq_find, hfind]
        show (m.read_ptr cur).getD 0 = ptr
        rw [hr]
        rfl
  · exact find?_is_lowest (pyRange_pairwise_le _ _ _) hfind

/-- Witness for `scan_fields_for_class_spec` at a concrete two-slot memory. -/
theorem scan_fields_for_class_spec_witness :
    (pyRange 0x100 (0x100 + 16) (mkAccessor 0 true [(0x100, 0x200), (0x200, 0x999)]).step).find?
        (slotMatches (mkAccessor 0 true [(0x100, 0x200), (0x200, 0x999)]) 0x999) = some 0x100 ∧
    ((∃ p, (mkAccessor 0 true [(0x100, 0x200), (0x200, 0x999)]).read_ptr 0x100 = some p ∧ p ≠ 0 ∧
        (mkAccessor 0 true [(0x100, 0x200), (0x200, 0x999)]).read_ptr p = some 0x999 ∧
        scan_fields_for_class (mkAccessor 0 true [(0x100, 0x200), (0x200, 0x999)]) 0x100 16 0x999 = p) ∧
      (∀ cur' ∈ pyRange 0x100 (0x100 + 16) (mkAccessor 0 true [(0x100, 0x200), (0x200, 0x999)]).step,
        slotMatches (mkAccessor 0 true [(0x100, 0x200), (0x200, 0x999)]) 0x999 cur' = true →
          0x100 ≤ cur')) :=
  ⟨by decide, scan_fields_for_class_spec (mkAccessor 0 true [(0x100, 0x200), (0x200, 0x999)])
    0x100 16 0x999 0x100 (by decide)⟩

/-- C1 counterexample: in a 16-byte span with exactly one matching slot (the
slot at address 0x100, which stores pointer 0x200, and 0x200 dereferences to
the target class 0x999), `scan_fields_for_class` returns the stored pointer
0x200, not the slot's address 0x100 as the claim states. -/
theorem scan_fields_for_class_cex :
    scan_fields_for_class (mkAccessor 0 true [(0x100, 0x200), (0x200, 0x999)]) 0x100 16 0x999 =
      0x200 ∧
    (0x200 : Nat) ≠ 0x100 ∧
    slotMatches (mkAccessor 0 true [(0x100, 0x200), (0x200, 0x999)]) 0x999 0x100 = true ∧
    (∀ cur ∈ pyRange 0x100 (0x100 + 16) (mkAccessor 0 true [(0x100, 0x200), (0x200, 0x999)]).step,
      cur ≠ 0x100 →
        slotMatches (mkAccessor 0 true [(0x100, 0x200), (0x200, 0x999)]) 0x999 cur = false) := by
  decide

/-- Candidate offsets tried by `Il2CppScanner.get_static_fields_ptr`. -/
def staticFieldsCandidates : List Nat := [0xB8, 0xB0, 0xD8, 0xD0, 0x5C]

/-- Loop of `get_static_fields_ptr`: try each candidate offset, logging every
backend pointer read attempted; first non-null read wins. -/
def staticFieldsGo (m : Accessor) (klass : Nat) : List Nat → List Nat → Nat × List Nat
  | [], log => (0, log)
  | off :: rest, log =>
    match m.read_ptr (klass + off) with
    | none => staticFieldsGo m klass rest (log ++ [klass + off])
    | some p =>
      if p = 0 then staticFieldsGo m klass rest (log ++ [klass + off])
      else (p, log ++ [klass + off])

/-- Embedding of `Il2CppScanner.get_static_fields_ptr` (scan.py lines 35-46),
instrumented with the list of backend read addresses it performs. -/
def get_static_fields_ptr (m : Accessor) (klass : Nat) : Nat × List Nat :=
  if klass = 0 then (0, []) else staticFieldsGo m klass staticFieldsCandidates []

/-- Two successive calls with unchanged backing memory — the shape the claim
quantifies over. -/
def get_static_fields_ptr_twice (m : Accessor) (klass : Nat) :
    (Nat × List Nat) × (Nat × List Nat) :=
  (get_static_fields_ptr m klass, get_static_fields_ptr m klass)

theorem staticFieldsGo_log_prefix (m : Accessor) (klass : Nat) (offs log : List Nat) :
    ∃ l, (staticFieldsGo m klass offs log).2 = log ++ l := by
  induction offs generalizing log with
  | nil => exact ⟨[], by simp [staticFieldsGo]⟩
  | cons off rest ih =>
    rw [staticFieldsGo]
    rcases hr : m.read_ptr (klass + off) with _ | p
    · rcases ih (log ++ [klass + off]) with ⟨l, hl⟩
      exact ⟨[klass + off] ++ l, by rw [hl, List.append_assoc]⟩
    · by_cases hp : p = 0
      · subst hp
        rcases ih (log ++ [klass + off]) with ⟨l, hl⟩
        refine ⟨[klass + off] ++ l, ?_⟩
        show (staticFieldsGo m klass rest (log ++ [klass + off])).2 = log ++ ([klass + off] ++ l)
        rw [hl, List.append_assoc]
      · exact ⟨[klass + off], by simp [hp]⟩

theorem get_static_fields_ptr_first_read (m : Accessor) (klass : Nat) (hk : klass ≠ 0) :
    ∃ l, (get_static_fields_ptr m klass).2 = (klass + 0xB8) :: l := by
  unfold get_static_fields_ptr
  rw [if_neg hk]
  show ∃ l, (staticFieldsGo m klass (0xB8 :: [0xB0, 0xD8, 0xD0, 0x5C]) []).2 = (klass + 0xB8) :: l
  rw [staticFieldsGo]
  rcases hr : m.read_ptr (klass + 0xB8) with _ | p
  · rcases staticFieldsGo_log_prefix m klass [0xB0, 0xD8, 0xD0, 0x5C] ([] ++ [klass + 0xB8]) with
      ⟨l, hl⟩
    refine ⟨l, ?_⟩
    rw [hl]
    simp
  · by_cases hp : p = 0
    · subst hp
      rcases staticFieldsGo_log_prefix m klass [0xB0, 0xD8, 0xD0, 0x5C] ([] ++ [klass + 0xB8]) with
        ⟨l, hl⟩
      refine ⟨l, ?_⟩
      show (staticFieldsGo m klass [0xB0, 0xD8, 0xD0, 0x5C] ([] ++ [klass + 0xB8])).2 =
        (klass + 0xB8) :: l
      rw [hl]
      simp
    · refine ⟨[], ?_⟩
      simp [hp]

/-- C3 (amended): two successive `get_static_fields_ptr` calls with unchanged
backing memory return an identical value, but the second call is *not* served
from a cache: for a non-null class descriptor it performs backend reads again,
beginning with the read of `klass + 0xB8` (the first candidate offset). -/
theorem get_static_fields_ptr_twice_spec (m : Accessor) (klass : Nat) (hk : klass ≠ 0) :
    (get_static_fields_ptr_twice m klass).1.1 = (get_static_fields_ptr_twice m klass).2.1 ∧
    (get_static_fields_ptr_twice m klass).2.2.head? = some (klass + 0xB8) ∧
    (get_static_fields_ptr_twice m klass).2.2 ≠ [] := by
  rcases get_static_fields_ptr_first_read m klass hk with ⟨l, hl⟩
  refine ⟨rfl, ?_, ?_⟩
  · show (get_static_fields_ptr m klass).2.head? = some (klass + 0xB8)
    rw [hl]
    rfl
  · show (get_static_fields_ptr m klass).2 ≠ []
    rw [hl]
    exact List.cons_ne_nil _ _

/-- Witness for `get_static_fields_ptr_twice_spec` at a concrete memory. -/
theorem get_static_fields_ptr_twice_spec_witness :
    (0x500 : Nat) ≠ 0 ∧
    ((get_static_fields_ptr_twice (mkAccessor 0 true [(0x5B8, 0x900)]) 0x500).1.1 =
        (get_static_fields_ptr_twice (mkAccessor 0 true [(0x5B8, 0x900)]) 0x500).2.1 ∧
      (get_static_fields_ptr_twice (mkAccessor 0 true [(0x5B8, 0x900)]) 0x500).2.2.head? =
        some (0x500 + 0xB8) ∧
      (get_static_fields_ptr_twice (mkAccessor 0 true [(0x5B8, 0x900)]) 0x500).2.2 ≠ []) :=
  ⟨by decide, get_static_fields_ptr_twice_spec (mkAccessor 0 true [(0x5B8, 0x900)]) 0x500
    (by decide)⟩

/-- C3 counterexample: with class descriptor 0x500 and unchanged backing memory
mapping address 0x5B8 to 0x900, both of two successive calls return 0x900, but
the second call's backend read log is [0x5B8] — it performs a backend read
rather than being served from a cache (there is no cache in the code). -/
theorem get_static_fields_ptr_cex :
    (get_static_fields_ptr_twice (mkAccessor 0 true [(0x5B8, 0x900)]) 0x500).1.1 = 0x900 ∧
    (get_static_fields_ptr_twice (mkAccessor 0 true [(0x5B8, 0x900)]) 0x500).2.1 = 0x900 ∧
    (get_static_fields_ptr_twice (mkAccessor 0 true [(0x5B8, 0x900)]) 0x500).2.2 = [0x5B8] ∧
    ([0x5B8] : List Nat) ≠ [] := by
  decide

end Il2CppScanner

namespace AmongUsDataService

/-- Cache-holding fields of `AmongUsDataService` (data_service.py __init__),
restricted to what `attach`/`detach`/`cleanup` touch.  `memory_attached`,
`meta_index_attached`, `scanner_attached` model whether `self.memory`,
`self._meta_index`, `self._scanner` are non-None. -/
structure ServiceState where
  class_cache : List (Nat × Nat)
  typeinfo_cache : List (String × Nat)
  stringlit_cache : List (String × Nat)
  cached_players : List Nat
  cached_local_player : Option Nat
  hud_ptr_cache : Nat
  report_ptr_cache : Nat
  report_bool_off_cache : Option Nat
  cached_playerdata_ptr_off : List (Bool × Option Nat)
  cached_playerdata_class : Option Nat
  memory_attached : Bool
  meta_index_attached : Bool
  scanner_attached : Bool

/-- Embedding of `AmongUsDataService.detach` (data_service.py lines 133-142):
closes the memory client, drops memory/meta/scanner, and clears only the
cached-playerdata class and per-field offset caches. -/
def detach (s : ServiceState) : ServiceState :=
  { s with
      memory_attached := false
      meta_index_attached := false
      scanner_attached := false
      cached_playerdata_class := none
      cached_playerdata_ptr_off := [] }

/-- Embedding of `AmongUsDataService.cleanup` (data_service.py lines 1405-1414):
clears the class cache, cached players, cached local player and the
cached-playerdata caches, then calls `detach`. -/
def cleanup (s : ServiceState) : ServiceState :=
  detach
    { s with
        class_cache := []
        cached_players := []
        cached_local_player := none
        cached_playerdata_ptr_off := []
        cached_playerdata_class := none }

/-- C2 counterexample: a session state holding a cached HUD pointer 0x1234, a
cached report-button pointer 0x5678, a validated report-bool offset, a resolved
class pointer cache entry and typeinfo/string-literal cache entries.  After
`detach` the class cache, HUD/report pointers and offsets all survive; even
after `cleanup` the HUD pointer, report pointer, report-bool offset and the
typeinfo/string-literal caches still hold their old values, so cache entries do
outlive the session. -/
theorem detach_cleanup_cex :
    (detach (ServiceState.mk [(0x29861fc, 0xAA)] [("hudmanager", 10)] [("report", 20)] [7]
        (some 3) 0x1234 0x5678 (some 0x40) [(true, some 0x28)] (some 0xBB) true true
        true)).class_cache = [(0x29861fc, 0xAA)] ∧
    (cleanup (ServiceState.mk [(0x29861fc, 0xAA)] [("hudmanager", 10)] [("report", 20)] [7]
        (some 3) 0x1234 0x5678 (some 0x40) [(true, some 0x28)] (some 0xBB) true true
        true)).hud_ptr_cache = 0x1234 ∧
    (cleanup (ServiceState.mk [(0x29861fc, 0xAA)] [("hudmanager", 10)] [("report", 20)] [7]
        (some 3) 0x1234 0x5678 (some 0x40) [(true, some 0x28)] (some 0xBB) true true
        true)).report_ptr_cache = 0x5678 ∧
    (cleanup (ServiceState.mk [(0x29861fc, 0xAA)] [("hudmanager", 10)] [("report", 20)] [7]
        (some 3) 0x1234 0x5678 (some 0x40) [(true, some 0x28)] (some 0xBB) true true
        true)).report_bool_off_cache = some 0x40 ∧
    (cleanup (ServiceState.mk [(0x29861fc, 0xAA)] [("hudmanager", 10)] [("report", 20)] [7]
        (some 3) 0x1234 0x5678 (some 0x40) [(true, some 0x28)] (some 0xBB) true true
        true)).typeinfo_cache = [("hudmanager", 10)] ∧
    (cleanup (ServiceState.mk [(0x29861fc, 0xAA)] [("hudmanager", 10)] [("report", 20)] [7]
        (some 3) 0x1234 0x5678 (some 0x40) [(true, some 0x28)] (some 0xBB) true true
        true)).stringlit_cache = [("report", 20)] ∧
    (0x1234 : Nat) ≠ 0 := by
  refine ⟨rfl, rfl, rfl, rfl, rfl, rfl, by decide⟩

/-- C2 (amended): `detach` drops the memory client, meta index and scanner and
clears exactly the cached-playerdata class and per-field offset caches, leaving
every other cache (resolved class pointers, typeinfo and string-literal keys,
HUD pointer, report-button pointer, report-bool offset, cached players) intact;
`cleanup` additionally clears the class-pointer cache, the cached player list
and the cached local player, but still leaves the HUD pointer, report-button
pointer, report-bool offset and the typeinfo/string-literal caches holding
their old values. -/
theorem detach_cleanup_spec (s : ServiceState) :
    (detach s).memory_attached = false ∧
    (detach s).meta_index_attached = false ∧
    (detach s).scanner_attached = false ∧
    (detach s).cached_playerdata_class = none ∧
    (detach s).cached_playerdata_ptr_off = [] ∧
    (detach s).class_cache = s.class_cache ∧
    (detach s).hud_ptr_cache = s.hud_ptr_cache ∧
    (detach s).report_ptr_cache = s.report_ptr_cache ∧
    (detach s).report_bool_off_cache = s.report_bool_off_cache ∧
    (detach s).typeinfo_cache = s.typeinfo_cache ∧
    (detach s).stringlit_cache = s.stringlit_cache ∧
    (detach s).cached_players = s.cached_players ∧
    (cleanup s).class_cache = [] ∧
    (cleanup s).cached_players = [] ∧
    (cleanup s).cached_local_player = none ∧
    (cleanup s).cached_playerdata_class = none ∧
    (cleanup s).cached_playerdata_ptr_off = [] ∧
    (cleanup s).memory_attached = false ∧
    (cleanup s).hud_ptr_cache = s.hud_ptr_cache ∧
    (cleanup s).report_ptr_cache = s.report_ptr_cache ∧
    (cleanup s).report_bool_off_cache = s.report_bool_off_cache ∧
    (cleanup s).typeinfo_cache = s.typeinfo_cache ∧
    (cleanup s).stringlit_cache = s.stringlit_cache :=
  ⟨rfl, rfl, rfl, rfl, rfl, rfl, rfl, rfl, rfl, rfl, rfl, rfl, rfl, rfl, rfl, rfl, rfl, rfl,
    rfl, rfl, rfl, rfl, rfl⟩

end AmongUsDataService

namespace MemoryClient

/-- OS-level view used by `MemoryClient`: `query` models `VirtualQueryEx`
(`none` models a zero result or a raised error, `some (state, protect)` the
relevant fields of the returned `MEMORY_BASIC_INFORMATION`); `readN a k` models
the underlying pymem read of `k` bytes at `a` (`none` models a raised
`MemoryReadError`). -/
structure OsView where
  query : Nat → Option (Nat × Nat)
  readN : Nat → Nat → Option Nat

/-- Model of `MemoryClient` for the page-check claim: pointer width plus the
OS view. -/
structure Client where
  is_64 : Bool
  os : OsView

/-- Embedding of `MemoryClient.is_address_committed` (memory.py lines 72-88):
requires a successful `VirtualQueryEx`, `State == MEM_COMMIT` (0x1000), and a
protection that is neither `PAGE_NOACCESS` (0x01) nor has the `PAGE_GUARD` bit
(0x100). -/
def is_address_committed (c : Client) (addr : Nat) : Bool :=
  match c.os.query addr with
  | none => false
  | some (state, prot) =>
    if state ≠ 0x1000 then false
    else if prot = 0x01 ∨ prot &&& 0x100 ≠ 0 then false
    else true

/-- Embedding of `MemoryClient.read_ptr` (memory.py lines 91-97), instrumented
with the list of `(address, byteCount)` OS reads performed.  `Except.error ()`
models raising `MemoryReadError`. -/
def read_ptr (c : Client) (addr : Nat) : Except Unit Nat × List (Nat × Nat) :=
  if is_address_committed c addr = false then (Except.error (), [])
  else
    let size := if c.is_64 then 8 else 4
    match c.os.readN addr size with
    | none => (Except.error (), [(addr, size)])
    | some v => (Except.ok v, [(addr, size)])

/-- C6: `read_ptr` first checks the containing page; on a failed
`VirtualQueryEx`, a non-committed state, a `PAGE_NOACCESS` protection or a
`PAGE_GUARD` protection it raises `MemoryReadError` having performed no
dereference (empty OS-read log); when the check passes it performs exactly one
OS read of exactly 8 bytes on a 64-bit session and 4 bytes on a 32-bit
session. -/
theorem read_ptr_page_check (c : Client) (addr state prot : Nat) :
    (c.os.query addr = none →
      read_ptr c addr = (Except.error (), [])) ∧
    (c.os.query addr = some (state, prot) → state ≠ 0x1000 →
      read_ptr c addr = (Except.error (), [])) ∧
    (c.os.query addr = some (state, prot) → prot = 0x01 →
      read_ptr c addr = (Except.error (), [])) ∧
    (c.os.query addr = some (state, prot) → prot &&& 0x100 ≠ 0 →
      read_ptr c addr = (Except.error (), [])) ∧
    (c.os.query addr = some (state, prot) → state = 0x1000 → prot ≠ 0x01 →
      prot &&& 0x100 = 0 →
      (read_ptr c addr).2 = [(addr, if c.is_64 then 8 else 4)]) := by
  refine ⟨?_, ?_, ?_, ?_, ?_⟩
  · intro hq
    unfold read_ptr
    rw [if_pos]
    simp [is_address_committed, hq]
  · intro hq hst
    unfold read_ptr
    rw [if_pos]
    simp [is_address_committed, hq, hst]
  · intro hq hpr
    unfold read_ptr
    rw [if_pos]
    simp only [is_address_committed, hq]
    by_cases hst : state ≠ 0x1000
    · simp [hst]
    · simp [hst, hpr]
  · intro hq hpr
    unfold read_ptr
    rw [if_pos]
    simp only [is_address_committed, hq]
    by_cases hst : state ≠ 0x1000
    · simp [hst]
    · simp [hst, hpr]
  · intro hq hst hp1 hpg
    have hc : is_address_committed c addr = true := by
      simp [is_address_committed, hq, hst, hp1, hpg]
    unfold read_ptr
    rw [if_neg (by rw [hc]; exact fun h => Bool.noConfusion h)]
    rcases hr : c.os.readN addr (if c.is_64 then 8 else 4) with _ | v <;> simp [hr]

/-- Concrete 64-bit client for the C6 witness: the page map commits address
0x2000 with a readable protection (0x04), marks 0x3000 guarded (protection
0x104), and knows nothing about any other address. -/
def pageClientEx : Client :=
  Client.mk true
    (OsView.mk
      (fun a =>
        if a = 0x2000 then some (0x1000, 0x04)
        else if a = 0x3000 then some (0x1000, 0x104) else none)
      (fun a k => if a = 0x2000 ∧ k = 8 then some 0xCAFE else none))

/-- Witness for `read_ptr_page_check` at `pageClientEx`: the committed page is
read with exactly 8 bytes, the guarded page and the unqueryable page both fail
with no OS read. -/
theorem read_ptr_page_check_witness :
    (read_ptr pageClientEx 0x2000).2 = [(0x2000, if pageClientEx.is_64 then 8 else 4)] ∧
    read_ptr pageClientEx 0x3000 = (Except.error (), []) ∧
    read_ptr pageClientEx 0x4000 = (Except.error (), []) := by
  refine ⟨?_, ?_, ?_⟩
  · exact (read_ptr_page_check pageClientEx 0x2000 0x1000 0x04).2.2.2.2
      (by simp [pageClientEx]) rfl (by decide) (by decide)
  · exact (read_ptr_page_check pageClientEx 0x3000 0x1000 0x104).2.2.2.1
      (by simp [pageClientEx]) (by decide)
  · exact (read_ptr_page_check pageClientEx 0x4000 0 0).1 (by simp [pageClientEx])

end MemoryClient

namespace Il2CppScanner

/-- State threaded through `scan_heap_for_class_instances`: hits accumulated so
far, the number of `time.time()` samples consumed, and the log of backend read
addresses attempted. -/
structure ScanSt where
  found : List Nat
  tick : Nat
  reads : List Nat

/-- Embedding of `if time_budget_end and time.time() > time_budget_end`: a
falsy budget (None or 0.0) consults nothing; otherwise one clock sample is
consumed and compared against the deadline. -/
def deadlineHit (clock : Nat → ℚ) : Option ℚ → ScanSt → Bool × ScanSt
  | none, st => (false, st)
  | some d, st =>
    if d = 0 then (false, st)
    else (decide (d < clock st.tick), { st with tick := st.tick + 1 })

theorem deadlineHit_preserves (clock : Nat → ℚ) (tbe : Option ℚ) (st : ScanSt) (b : Bool)
    (st' : ScanSt) (hd : deadlineHit clock tbe st = (b, st')) :
    st'.found = st.found ∧ st'.reads = st.reads := by
  rcases tbe with _ | d
  · rw [deadlineHit] at hd
    cases hd
    exact ⟨rfl, rfl⟩
  · rw [deadlineHit] at hd
    by_cases h0 : d = 0
    · rw [if_pos h0] at hd
      cases hd
      exact ⟨rfl, rfl⟩
    · rw [if_neg h0] at hd
      cases hd
      exact ⟨rfl, rfl⟩

/-- Inner while-loop of `scan_heap_for_class_instances` over the slots of one
region: loop while hits are below the limit, break on deadline, read each slot
and record a hit when the stored word equals the target class. -/
def heapInner (m : Accessor) (clock : Nat → ℚ) (tgt lim : Nat) (tbe : Option ℚ) :
    List Nat → ScanSt → ScanSt
  | [], st => st
  | cur :: rest, st =>
    if st.found.length < lim then
      if (deadlineHit clock tbe st).1 then (deadlineHit clock tbe st).2
      else
        match m.read_ptr cur with
        | none =>
          heapInner m clock tgt lim tbe rest
            { (deadlineHit clock tbe st).2 with
                reads := (deadlineHit clock tbe st).2.reads ++ [cur] }
        | some obj =>
          if obj = tgt then
            heapInner m clock tgt lim tbe rest
              { (deadlineHit clock tbe st).2 with
                  found := (deadlineHit clock tbe st).2.found ++ [cur],
                  reads := (deadlineHit clock tbe st).2.reads ++ [cur] }
          else
            heapInner m clock tgt lim tbe rest
              { (deadlineHit clock tbe st).2 with
                  reads := (deadlineHit clock tbe st).2.reads ++ [cur] }
    else st

/-- Outer for-loop of `scan_heap_for_class_instances` over the region list:
break on deadline before each region, scan the region, stop once the limit is
reached. -/
def heapOuter (m : Accessor) (clock : Nat → ℚ) (tgt lim : Nat) (tbe : Option ℚ) :
    List (Nat × Nat) → ScanSt → ScanSt
  | [], st => st
  | (start, size) :: rest, st =>
    if (deadlineHit clock tbe st).1 then (deadlineHit clock tbe st).2
    else
      if lim ≤ (heapInner m clock tgt lim tbe (pyRange start (start + size) m.step)
          (deadlineHit clock tbe st).2).found.length then
        heapInner m clock tgt lim tbe (pyRange start (start + size) m.step)
          (deadlineHit clock tbe st).2
      else
        heapOuter m clock tgt lim tbe rest
          (heapInner m clock tgt lim tbe (pyRange start (start + size) m.step)
            (deadlineHit clock tbe st).2)

/-- Embedding of `Il2CppScanner.scan_heap_for_class_instances` (scan.py lines
74-114): null target short-circuits to no hits; a missing region list defaults
to four 16MB windows above the module base; the result is the final state
(its `found` component is the returned list). -/
def scan_heap_for_class_instances (m : Accessor) (clock : Nat → ℚ) (target_klass : Nat)
    (regions : Option (List (Nat × Nat))) (limit : Nat) (time_budget_end : Option ℚ) : ScanSt :=
  if target_klass = 0 then ⟨[], 0, []⟩
  else
    let rs :=
      match regions with
      | some rs => rs
      | none =>
        [(m.base + 0x01000000, 0x01000000), (m.base + 0x02000000, 0x01000000),
         (m.base + 0x03000000, 0x01000000), (m.base + 0x04000000, 0x01000000)]
    heapOuter m clock target_klass limit time_budget_end rs ⟨[], 0, []⟩

theorem heapInner_len_le (m : Accessor) (clock : Nat → ℚ) (tgt lim : Nat) (tbe : Option ℚ)
    (l : List Nat) (st : ScanSt) (h : st.found.length ≤ lim) :
    (heapInner m clock tgt lim tbe l st).found.length ≤ lim := by
  induction l generalizing st with
  | nil => exact h
  | cons cur rest ih =>
    rw [heapInner]
    by_cases hlt : st.found.length < lim
    · rw [if_pos hlt]
      have hf : ((deadlineHit clock tbe st).2).found = st.found :=
        (deadlineHit_preserves clock tbe st (deadlineHit clock tbe st).1
          (deadlineHit clock tbe st).2 rfl).1
      by_cases hb : (deadlineHit clock tbe st).1 = true
      · rw [if_pos hb, hf]
        exact h
      · rw [if_neg hb]
        split
        · exact ih _ (by simpa [hf] using h)
        · rename_i obj heq
          by_cases ho : obj = tgt
          · rw [if_pos ho]
            refine ih _ ?_
            simp only [List.length_append, List.length_cons, List.length_nil, hf]
            omega
          · rw [if_neg ho]
            exact ih _ (by simpa [hf] using h)
    · rw [if_neg hlt]
      exact h

theorem heapOuter_len_le (m : Accessor) (clock : Nat → ℚ) (tgt lim : Nat) (tbe : Option ℚ)
    (rs : List (Nat × Nat)) (st : ScanSt) (h : st.found.length ≤ lim) :
    (heapOuter m clock tgt lim tbe rs st).found.length ≤ lim := by
  induction rs generalizing st with
  | nil => exact h
  | cons r rest ih =>
    rcases r with ⟨start, size⟩
    rw [heapOuter]
    have hf : ((deadlineHit clock tbe st).2).found = st.found :=
      (deadlineHit_preserves clock tbe st (deadlineHit clock tbe st).1
        (deadlineHit clock tbe st).2 rfl).1
    have hin := heapInner_len_le m clock tgt lim tbe
      (pyRange start (start + size) m.step) (deadlineHit clock tbe st).2
      (by rw [hf]; exact h)
    by_cases hb : (deadlineHit clock tbe st).1 = true
    · rw [if_pos hb, hf]
      exact h
    · rw [if_neg hb]
      by_cases hl : lim ≤ (heapInner m clock tgt lim tbe
          (pyRange start (start + size) m.step) (deadlineHit clock tbe st).2).found.length
      · rw [if_pos hl]
        exact hin
      · rw [if_neg hl]
        exact ih _ hin

/-- C5: with a deadline that already lies in the past (every clock sample,
starting with the first one taken, exceeds the positive budget end),
`scan_heap_for_class_instances` returns an empty hit list having performed no
backend read at all; and in general the hit list never exceeds the limit. -/
theorem scan_heap_deadline_spec :
    (∀ (m : Accessor) (clock : Nat → ℚ) (tgt : Nat) (regions : Option (List (Nat × Nat)))
        (lim : Nat) (d : ℚ), d ≠ 0 → d < clock 0 →
      (scan_heap_for_class_instances m clock tgt regions lim (some d)).found = [] ∧
      (scan_heap_for_class_instances m clock tgt regions lim (some d)).reads = []) ∧
    (∀ (m : Accessor) (clock : Nat → ℚ) (tgt : Nat) (regions : Option (List (Nat × Nat)))
        (lim : Nat) (tbe : Option ℚ),
      (scan_heap_for_class_instances m clock tgt regions lim tbe).found.length ≤ lim) := by
  constructor
  · intro m clock tgt regions lim d h0 hpast
    unfold scan_heap_for_class_instances
    by_cases htgt : tgt = 0
    · rw [if_pos htgt]
      exact ⟨rfl, rfl⟩
    · rw [if_neg htgt]
      have hd : deadlineHit clock (some d) ⟨[], 0, []⟩ =
          (true, { found := [], tick := 1, reads := [] }) := by
        rw [deadlineHit, if_neg h0]
        simp [hpast]
      have hout : ∀ start size rest,
          heapOuter m clock tgt lim (some d) ((start, size) :: rest) ⟨[], 0, []⟩ =
            { found := [], tick := 1, reads := [] } := by
        intro start size rest
        rw [heapOuter, hd]
        rfl
      rcases regions with _ | rs
      · rw [hout]
        exact ⟨rfl, rfl⟩
      · rcases rs with _ | ⟨⟨start, size⟩, rest⟩
        · exact ⟨rfl, rfl⟩
        · rw [hout]
          exact ⟨rfl, rfl⟩
  · intro m clock tgt regions lim tbe
    unfold scan_heap_for_class_instances
    by_cases htgt : tgt = 0
    · simp [htgt]
    · rw [if_neg htgt]
      rcases regions with _ | rs
      · exact heapOuter_len_le _ _ _ _ _ _ _ (Nat.zero_le _)
      · exact heapOuter_len_le _ _ _ _ _ _ _ (Nat.zero_le _)

/-- Witness for `scan_heap_deadline_spec`: deadline 5 with a clock already at
6 — no hits and no reads even over a 64MB default region list; and the limit
bound at a concrete call. -/
theorem scan_heap_deadline_spec_witness :
    ((5 : ℚ) ≠ 0 ∧ (5 : ℚ) < (fun _ => (6 : ℚ)) 0 ∧
      (scan_heap_for_class_instances (mkAccessor 0x140000000 true []) (fun _ => (6 : ℚ))
          0x999 none 16 (some 5)).found = [] ∧
      (scan_heap_for_class_instances (mkAccessor 0x140000000 true []) (fun _ => (6 : ℚ))
          0x999 none 16 (some 5)).reads = []) ∧
    (scan_heap_for_class_instances (mkAccessor 0x140000000 true []) (fun _ => (6 : ℚ))
        0x999 (some [(0x100, 8)]) 0 none).found.length ≤ 0 := by
  constructor
  · refine ⟨by norm_num, by norm_num, ?_⟩
    exact scan_heap_deadline_spec.1 (mkAccessor 0x140000000 true []) (fun _ => (6 : ℚ))
      0x999 none 16 5 (by norm_num) (by norm_num)
  · exact scan_heap_deadline_spec.2 (mkAccessor 0x140000000 true []) (fun _ => (6 : ℚ))
      0x999 (some [(0x100, 8)]) 0 none

end Il2CppScanner

namespace Il2CppScanner

/-- Embedding of `Il2CppScanner.get_class_from_typeinfo` (scan.py lines 24-28):
one indirection through `base + rva`, 0 on a null rva or a failed read. -/
def get_class_from_typeinfo (m : Accessor) (rva : Nat) : Nat :=
  if rva = 0 then 0 else (m.read_ptr (m.base + rva)).getD 0

/-- Loop of `Il2CppScanner.scan_fields_for_ptr_value`: return the first slot
address whose stored word equals the target value. -/
def scanPtrValueGo (m : Accessor) (target : Nat) : List Nat → Nat
  | [] => 0
  | cur :: rest =>
    match m.read_ptr cur with
    | none => scanPtrValueGo m target rest
    | some ptr => if ptr = target then cur else scanPtrValueGo m target rest

/-- Embedding of `Il2CppScanner.scan_fields_for_ptr_value` (scan.py lines 62-72). -/
def scan_fields_for_ptr_value (m : Accessor) (fields_base span_bytes target_ptr : Nat) : Nat :=
  scanPtrValueGo m target_ptr (pyRange fields_base (fields_base + span_bytes) m.step)

/-- Loop of `object_fields_contains_ptr`: true as soon as a slot holds the
target value. -/
def containsGo (m : Accessor) (target : Nat) : List Nat → Bool
  | [] => false
  | cur :: rest =>
    match m.read_ptr cur with
    | none => containsGo m target rest
    | some p => if p = target then true else containsGo m target rest

/-- Embedding of `Il2CppScanner.object_fields_contains_ptr` (scan.py lines
116-131): scan the object's field region (header-adjusted, at least 0x40
bytes) for the literal target value. -/
def object_fields_contains_ptr (m : Accessor) (obj_ptr target_ptr span : Nat) : Bool :=
  let fields_off := if m.is_64 then 0x10 else 0x8
  containsGo m target_ptr
    (pyRange (obj_ptr + fields_off) (obj_ptr + fields_off + max 0x40 span) m.step)

/-- Loop of `scan_object_field_ptrs`: collect non-null stored words, stopping
once 512 have been collected. -/
def fanoutGo (m : Accessor) : List Nat → List Nat → List Nat
  | [], out => out
  | cur :: rest, out =>
    match m.read_ptr cur with
    | none => fanoutGo m rest out
    | some p =>
      if p = 0 then fanoutGo m rest out
      else if 512 ≤ (out ++ [p]).length then out ++ [p]
      else fanoutGo m rest (out ++ [p])

/-- Embedding of `Il2CppScanner.scan_object_field_ptrs` (scan.py lines
133-150): fan-out enumeration over at least 0x100 bytes of field region. -/
def scan_object_field_ptrs (m : Accessor) (obj_ptr span : Nat) : List Nat :=
  let fields_off := if m.is_64 then 0x10 else 0x8
  fanoutGo m (pyRange (obj_ptr + fields_off) (obj_ptr + fields_off + max 0x100 span) m.step) []

/-- Method-fingerprint loop shared by `class_has_methods` and
`find_object_by_method_signature`: count slots holding one of the method
addresses, succeed once `needed` hits accumulate. -/
def methodsGo (m : Accessor) (methods : List Nat) (needed : Nat) : List Nat → Nat → Bool
  | [], _ => false
  | addr :: rest, hits =>
    match m.read_ptr addr with
    | none => methodsGo m methods needed rest hits
    | some p =>
      if p ∈ methods then
        if needed ≤ hits + 1 then true else methodsGo m methods needed rest (hits + 1)
      else methodsGo m methods needed rest hits

/-- Embedding of `Il2CppScanner.class_has_methods` (scan.py lines 152-169):
scan 0x10000 bytes of the class descriptor for at least `min(2, |methods|)`
known method addresses. -/
def class_has_methods (m : Accessor) (klass : Nat) (methods : List Nat) : Bool :=
  if klass = 0 ∨ methods = [] then false
  else
    methodsGo m methods (min 2 methods.length)
      (pyRange klass (klass + 0x10000) m.step) 0

/-- Tick-level form of the `if time_budget_end and time.time() > deadline`
check used by the brute-force scans. -/
def deadlineHitT (clock : Nat → ℚ) : Option ℚ → Nat → Bool × Nat
  | none, t => (false, t)
  | some d, t => if d = 0 then (false, t) else (decide (d < clock t), t + 1)

/-- Inner while-loop of `find_object_by_method_signature`: walk candidate
object addresses, fingerprint those whose class pointer lies in the module
window. -/
def fomsInner (m : Accessor) (clock : Nat → ℚ) (methods : List Nat) (asm_max needed : Nat)
    (tbe : Option ℚ) : List Nat → Nat → Option Nat × Nat
  | [], t => (none, t)
  | cur :: rest, t =>
    if (deadlineHitT clock tbe t).1 then (none, (deadlineHitT clock tbe t).2)
    else
      match m.read_ptr cur with
      | none => fomsInner m clock methods asm_max needed tbe rest (deadlineHitT clock tbe t).2
      | some klass =>
        if klass ≠ 0 ∧ m.base ≤ klass ∧ klass < asm_max then
          if methodsGo m methods needed (pyRange klass (klass + 0x10000) m.step) 0 then
            (some cur, (deadlineHitT clock tbe t).2)
          else fomsInner m clock methods asm_max needed tbe rest (deadlineHitT clock tbe t).2
        else fomsInner m clock methods asm_max needed tbe rest (deadlineHitT clock tbe t).2

/-- Outer region loop of `find_object_by_method_signature`. -/
def fomsOuter (m : Accessor) (clock : Nat → ℚ) (methods : List Nat) (asm_max needed : Nat)
    (tbe : Option ℚ) : List (Nat × Nat) → Nat → Option Nat × Nat
  | [], t => (none, t)
  | (start, size) :: rest, t =>
    if (deadlineHitT clock tbe t).1 then (none, (deadlineHitT clock tbe t).2)
    else
      match fomsInner m clock methods asm_max needed tbe (pyRange start (start + size) m.step)
          (deadlineHitT clock tbe t).2 with
      | (some obj, t') => (some obj, t')
      | (none, t') => fomsOuter m clock methods asm_max needed tbe rest t'

/-- Embedding of `Il2CppScanner.find_object_by_method_signature` (scan.py lines
171-205): brute-force scan over the accessor's heap regions (at most 4096),
restricted to candidates whose class pointer lies below the assembly window
bound, fingerprinting with `min(2, |methods|)` required hits. -/
def find_object_by_method_signature (m : Accessor) (clock : Nat → ℚ) (methods : List Nat)
    (tbe : Option ℚ) : Nat :=
  if methods = [] then 0
  else
    let hi := (methods.max?).getD (m.base + 0x05000000)
    let asm_max := max (m.base + 0x05000000) (hi + 0x00100000)
    ((fomsOuter m clock methods asm_max (min 2 methods.length) tbe (m.heap_regions.take 4096)
        0).1).getD 0

/-- Back-offsets tried by `find_button_by_string_xref` between a string slot
and its owning object's start. -/
def backOffsets : List Nat := [0x20, 0x28, 0x30, 0x38, 0x40, 0x48, 0x50, 0x60, 0x70, 0x80]

/-- Candidate-offset loop of `find_button_by_string_xref`: walk back from the
slot holding the string address and accept an object whose class is one of the
button classes.  Natural subtraction maps python's `obj_base <= 0` guard to
`obj_base = 0`. -/
def fbsxTryOffsets (m : Accessor) (btn_klasses : List Nat) (cur fields_off : Nat) :
    List Nat → Option Nat
  | [] => none
  | foff :: rest =>
    if cur - foff - fields_off = 0 then fbsxTryOffsets m btn_klasses cur fields_off rest
    else
      match m.read_ptr (cur - foff - fields_off) with
      | none => fbsxTryOffsets m btn_klasses cur fields_off rest
      | some k =>
        if k ≠ 0 ∧ k ∈ btn_klasses then some (cur - foff - fields_off)
        else fbsxTryOffsets m btn_klasses cur fields_off rest

/-- Inner while-loop of `find_button_by_string_xref`. -/
def fbsxInner (m : Accessor) (clock : Nat → ℚ) (str_va : Nat) (btn_klasses : List Nat)
    (fields_off : Nat) (tbe : Option ℚ) : List Nat → Nat → Option Nat × Nat
  | [], t => (none, t)
  | cur :: rest, t =>
    if (deadlineHitT clock tbe t).1 then (none, (deadlineHitT clock tbe t).2)
    else
      match m.read_ptr cur with
      | none => fbsxInner m clock str_va btn_klasses fields_off tbe rest (deadlineHitT clock tbe t).2
      | some val =>
        if val = str_va then
          match fbsxTryOffsets m btn_klasses cur fields_off backOffsets with
          | some ob => (some ob, (deadlineHitT clock tbe t).2)
          | none =>
            fbsxInner m clock str_va btn_klasses fields_off tbe rest (deadlineHitT clock tbe t).2
        else fbsxInner m clock str_va btn_klasses fields_off tbe rest (deadlineHitT clock tbe t).2

/-- Outer region loop of `find_button_by_string_xref`. -/
def fbsxOuter (m : Accessor) (clock : Nat → ℚ) (str_va : Nat) (btn_klasses : List Nat)
    (fields_off : Nat) (tbe : Option ℚ) : List (Nat × Nat) → Nat → Option Nat × Nat
  | [], t => (none, t)
  | (start, size) :: rest, t =>
    if (deadlineHitT clock tbe t).1 then (none, (deadlineHitT clock tbe t).2)
    else
      match fbsxInner m clock str_va btn_klasses fields_off tbe
          (pyRange start (start + size) m.step) (deadlineHitT clock tbe t).2 with
      | (some obj, t') => (some obj, t')
      | (none, t') => fbsxOuter m clock str_va btn_klasses fields_off tbe rest t'

/-- Embedding of `Il2CppScanner.find_button_by_string_xref` (scan.py lines
207-251): scan four fixed 16MB windows for a slot equal to the string address,
then walk back by plausible offsets to a button-classed object. -/
def find_button_by_string_xref (m : Accessor) (clock : Nat → ℚ) (str_va : Nat)
    (btn_klasses : List Nat) (tbe : Option ℚ) : Nat :=
  if str_va = 0 then 0
  else
    let fields_off := if m.is_64 then 0x10 else 0x8
    ((fbsxOuter m clock str_va btn_klasses fields_off tbe
        [(m.base + 0x01000000, 0x01000000), (m.base + 0x02000000, 0x01000000),
         (m.base + 0x03000000, 0x01000000), (m.base + 0x04000000, 0x01000000)] 0).1).getD 0

end Il2CppScanner

/-- Accessor all of whose reads fail (every python read raises), with the
given base, width and heap-region enumeration. -/
def failAccessor (b : Nat) (w : Bool) (rs : List (Nat × Nat)) : Accessor where
  base := b
  is_64 := w
  read_ptr := fun _ => none
  readU32 := fun _ => none
  readI32 := fun _ => none
  readF32 := fun _ => none
  heap_regions := rs

namespace Il2CppScanner

theorem scanFieldsGo_fail (m : Accessor) (hfail : ∀ a, m.read_ptr a = none) (t : Nat)
    (l : List Nat) : scanFieldsGo m t l = 0 := by
  induction l with
  | nil => rfl
  | cons cur rest ih =>
    rw [scanFieldsGo, hfail cur]
    exact ih

theorem scanPtrValueGo_fail (m : Accessor) (hfail : ∀ a, m.read_ptr a = none) (t : Nat)
    (l : List Nat) : scanPtrValueGo m t l = 0 := by
  induction l with
  | nil => rfl
  | cons cur rest ih =>
    rw [scanPtrValueGo, hfail cur]
    exact ih

theorem staticFieldsGo_fail (m : Accessor) (hfail : ∀ a, m.read_ptr a = none) (k : Nat)
    (offs log : List Nat) : (staticFieldsGo m k offs log).1 = 0 := by
  induction offs generalizing log with
  | nil => rfl
  | cons off rest ih =>
    rw [staticFieldsGo, hfail (k + off)]
    exact ih _

theorem containsGo_fail (m : Accessor) (hfail : ∀ a, m.read_ptr a = none) (t : Nat)
    (l : List Nat) : containsGo m t l = false := by
  induction l with
  | nil => rfl
  | cons cur rest ih =>
    rw [containsGo, hfail cur]
    exact ih

theorem fanoutGo_fail (m : Accessor) (hfail : ∀ a, m.read_ptr a = none)
    (l out : List Nat) : fanoutGo m l out = out := by
  induction l generalizing out with
  | nil => rfl
  | cons cur rest ih =>
    rw [fanoutGo, hfail cur]
    exact ih _

theorem methodsGo_fail (m : Accessor) (hfail : ∀ a, m.read_ptr a = none)
    (methods : List Nat) (needed : Nat) (l : List Nat) (hits : Nat) :
    methodsGo m methods needed l hits = false := by
  induction l generalizing hits with
  | nil => rfl
  | cons addr rest ih =>
    rw [methodsGo, hfail addr]
    exact ih _

theorem heapInner_fail (m : Accessor) (hfail : ∀ a, m.read_ptr a = none) (clock : Nat → ℚ)
    (tgt lim : Nat) (tbe : Option ℚ) (l : List Nat) (st : ScanSt) :
    (heapInner m clock tgt lim tbe l st).found = st.found := by
  induction l generalizing st with
  | nil => rfl
  | cons cur rest ih =>
    rw [heapInner]
    by_cases hlt : st.found.length < lim
    · rw [if_pos hlt]
      have hf : ((deadlineHit clock tbe st).2).found = st.found :=
        (deadlineHit_preserves clock tbe st (deadlineHit clock tbe st).1
          (deadlineHit clock tbe st).2 rfl).1
      by_cases hb : (deadlineHit clock tbe st).1 = true
      · rw [if_pos hb, hf]
      · rw [if_neg hb, hfail cur]
        show (heapInner m clock tgt lim tbe rest
          { (deadlineHit clock tbe st).2 with
              reads := (deadlineHit clock tbe st).2.reads ++ [cur] }).found = st.found
        rw [ih]
        exact hf
    · rw [if_neg hlt]

theorem heapOuter_fail (m : Accessor) (hfail : ∀ a, m.read_ptr a = none) (clock : Nat → ℚ)
    (tgt lim : Nat) (tbe : Option ℚ) (rs : List (Nat × Nat)) (st : ScanSt) :
    (heapOuter m clock tgt lim tbe rs st).found = st.found := by
  induction rs generalizing st with
  | nil => rfl
  | cons r rest ih =>
    rcases r with ⟨start, size⟩
    rw [heapOuter]
    have hf : ((deadlineHit clock tbe st).2).found = st.found :=
      (deadlineHit_preserves clock tbe st (deadlineHit clock tbe st).1
        (deadlineHit clock tbe st).2 rfl).1
    have hin : (heapInner m clock tgt lim tbe (pyRange start (start + size) m.step)
        (deadlineHit clock tbe st).2).found = st.found := by
      rw [heapInner_fail m hfail]
      exact hf
    by_cases hb : (deadlineHit clock tbe st).1 = true
    · rw [if_pos hb, hf]
    · rw [if_neg hb]
      by_cases hl : lim ≤ (heapInner m clock tgt lim tbe
          (pyRange start (start + size) m.step) (deadlineHit clock tbe st).2).found.length
      · rw [if_pos hl, hin]
      · rw [if_neg hl, ih]
        exact hin

theorem fomsInner_fail (m : Accessor) (hfail : ∀ a, m.read_ptr a = none) (clock : Nat → ℚ)
    (methods : List Nat) (asm_max needed : Nat) (tbe : Option ℚ) (l : List Nat) (t : Nat) :
    (fomsInner m clock methods asm_max needed tbe l t).1 = none := by
  induction l generalizing t with
  | nil => rfl
  | cons cur rest ih =>
    rw [fomsInner]
    by_cases hb : (deadlineHitT clock tbe t).1 = true
    · rw [if_pos hb]
    · rw [if_neg hb, hfail cur]
      show (fomsInner m clock methods asm_max needed tbe rest (deadlineHitT clock tbe t).2).1 =
        none
      exact ih _

theorem fomsOuter_fail (m : Accessor) (hfail : ∀ a, m.read_ptr a = none) (clock : Nat → ℚ)
    (methods : List Nat) (asm_max needed : Nat) (tbe : Option ℚ) (rs : List (Nat × Nat))
    (t : Nat) : (fomsOuter m clock methods asm_max needed tbe rs t).1 = none := by
  induction rs generalizing t with
  | nil => rfl
  | cons r rest ih =>
    rcases r with ⟨start, size⟩
    rw [fomsOuter]
    by_cases hb : (deadlineHitT clock tbe t).1 = true
    · rw [if_pos hb]
    · rw [if_neg hb]
      have hin := fomsInner_fail m hfail clock methods asm_max needed tbe
        (pyRange start (start + size) m.step) (deadlineHitT clock tbe t).2
      rcases hmatch : fomsInner m clock methods asm_max needed tbe
          (pyRange start (start + size) m.step) (deadlineHitT clock tbe t).2 with ⟨r1, t'⟩
      rw [hmatch] at hin
      rcases r1 with _ | obj
      · exact ih t'
      · cases hin

theorem fbsxInner_fail (m : Accessor) (hfail : ∀ a, m.read_ptr a = none) (clock : Nat → ℚ)
    (str_va : Nat) (btn_klasses : List Nat) (fields_off : Nat) (tbe : Option ℚ)
    (l : List Nat) (t : Nat) :
    (fbsxInner m clock str_va btn_klasses fields_off tbe l t).1 = none := by
  induction l generalizing t with
  | nil => rfl
  | cons cur rest ih =>
    rw [fbsxInner]
    by_cases hb : (deadlineHitT clock tbe t).1 = true
    · rw [if_pos hb]
    · rw [if_neg hb, hfail cur]
      show (fbsxInner m clock str_va btn_klasses fields_off tbe rest
        (deadlineHitT clock tbe t).2).1 = none
      exact ih _

theorem fbsxOuter_fail (m : Accessor) (hfail : ∀ a, m.read_ptr a = none) (clock : Nat → ℚ)
    (str_va : Nat) (btn_klasses : List Nat) (fields_off : Nat) (tbe : Option ℚ)
    (rs : List (Nat × Nat)) (t : Nat) :
    (fbsxOuter m clock str_va btn_klasses fields_off tbe rs t).1 = none := by
  induction rs generalizing t with
  | nil => rfl
  | cons r rest ih =>
    rcases r with ⟨start, size⟩
    rw [fbsxOuter]
    by_cases hb : (deadlineHitT clock tbe t).1 = true
    · rw [if_pos hb]
    · rw [if_neg hb]
      have hin := fbsxInner_fail m hfail clock str_va btn_klasses fields_off tbe
        (pyRange start (start + size) m.step) (deadlineHitT clock tbe t).2
      rcases hmatch : fbsxInner m clock str_va btn_klasses fields_off tbe
          (pyRange start (start + size) m.step) (deadlineHitT clock tbe t).2 with ⟨r1, t'⟩
      rw [hmatch] at hin
      rcases r1 with _ | obj
      · exact ih t'
      · cases hin

/-- C4: every scanner primitive is embedded as a *total* function — it can
only return a value, never propagate a read failure — and when every accessor
read fails (the all-raising backend), each primitive returns its not-found
sentinel (0, the empty list, or false) for every input: the class-from-typeinfo
lookup, the static-fields lookup, both span scans, the bounded heap scan, the
containment test, the fan-out enumeration, the method fingerprint, the
method-signature object search and the string-xref button search. -/
theorem scanner_primitives_fail_sentinel :
    (∀ (b : Nat) (w : Bool) (rs : List (Nat × Nat)) (rva : Nat),
      get_class_from_typeinfo (failAccessor b w rs) rva = 0) ∧
    (∀ (b : Nat) (w : Bool) (rs : List (Nat × Nat)) (klass : Nat),
      (get_static_fields_ptr (failAccessor b w rs) klass).1 = 0) ∧
    (∀ (b : Nat) (w : Bool) (rs : List (Nat × Nat)) (fb sp tk : Nat),
      scan_fields_for_class (failAccessor b w rs) fb sp tk = 0) ∧
    (∀ (b : Nat) (w : Bool) (rs : List (Nat × Nat)) (fb sp tp : Nat),
      scan_fields_for_ptr_value (failAccessor b w rs) fb sp tp = 0) ∧
    (∀ (b : Nat) (w : Bool) (rs : List (Nat × Nat)) (clock : Nat → ℚ) (tgt : Nat)
        (regions : Option (List (Nat × Nat))) (lim : Nat) (tbe : Option ℚ),
      (scan_heap_for_class_instances (failAccessor b w rs) clock tgt regions lim tbe).found
        = []) ∧
    (∀ (b : Nat) (w : Bool) (rs : List (Nat × Nat)) (o tp sp : Nat),
      object_fields_contains_ptr (failAccessor b w rs) o tp sp = false) ∧
    (∀ (b : Nat) (w : Bool) (rs : List (Nat × Nat)) (o sp : Nat),
      scan_object_field_ptrs (failAccessor b w rs) o sp = []) ∧
    (∀ (b : Nat) (w : Bool) (rs : List (Nat × Nat)) (k : Nat) (ms : List Nat),
      class_has_methods (failAccessor b w rs) k ms = false) ∧
    (∀ (b : Nat) (w : Bool) (rs : List (Nat × Nat)) (clock : Nat → ℚ) (ms : List Nat)
        (tbe : Option ℚ),
      find_object_by_method_signature (failAccessor b w rs) clock ms tbe = 0) ∧
    (∀ (b : Nat) (w : Bool) (rs : List (Nat × Nat)) (clock : Nat → ℚ) (sv : Nat)
        (bks : List Nat) (tbe : Option ℚ),
      find_button_by_string_xref (failAccessor b w rs) clock sv bks tbe = 0) := by
  have hfail : ∀ (b : Nat) (w : Bool) (rs : List (Nat × Nat)) (a : Nat),
      (failAccessor b w rs).read_ptr a = none := fun _ _ _ _ => rfl
  refine ⟨?_, ?_, ?_, ?_, ?_, ?_, ?_, ?_, ?_, ?_⟩
  · intro b w rs rva
    unfold get_class_from_typeinfo
    by_cases h : rva = 0
    · rw [if_pos h]
    · rw [if_neg h, hfail]
      rfl
  · intro b w rs klass
    unfold get_static_fields_ptr
    by_cases h : klass = 0
    · rw [if_pos h]
    · rw [if_neg h]
      exact staticFieldsGo_fail _ (hfail b w rs) _ _ _
  · intro b w rs fb sp tk
    exact scanFieldsGo_fail _ (hfail b w rs) _ _
  · intro b w rs fb sp tp
    exact scanPtrValueGo_fail _ (hfail b w rs) _ _
  · intro b w rs clock tgt regions lim tbe
    unfold scan_heap_for_class_instances
    by_cases h : tgt = 0
    · rw [if_pos h]
    · rw [if_neg h]
      rcases regions with _ | rlist
      · exact heapOuter_fail _ (hfail b w rs) _ _ _ _ _ _
      · exact heapOuter_fail _ (hfail b w rs) _ _ _ _ _ _
  · intro b w rs o tp sp
    exact containsGo_fail _ (hfail b w rs) _ _
  · intro b w rs o sp
    exact fanoutGo_fail _ (hfail b w rs) _ _
  · intro b w rs k ms
    unfold class_has_methods
    by_cases h : k = 0 ∨ ms = []
    · rw [if_pos h]
    · rw [if_neg h]
      exact methodsGo_fail _ (hfail b w rs) _ _ _ _
  · intro b w rs clock ms tbe
    unfold find_object_by_method_signature
    by_cases h : ms = []
    · rw [if_pos h]
    · rw [if_neg h]
      simp only [fomsOuter_fail _ (hfail b w rs), Option.getD_none]
  · intro b w rs clock sv bks tbe
    unfold find_button_by_string_xref
    by_cases h : sv = 0
    · rw [if_pos h]
    · rw [if_neg h]
      simp only [fbsxOuter_fail _ (hfail b w rs), Option.getD_none]

end Il2CppScanner

namespace AmongUsDataService

/-- Reads performed by `_get_default_outfit_from_dict`, tagged by which source
read site they come from: the entries-array pointer, the count, or entry i's
hash / key / value field. -/
inductive DictRead where
  | entriesArr : DictRead
  | countF : DictRead
  | hashF : Nat → DictRead
  | keyF : Nat → DictRead
  | valF : Nat → DictRead
deriving DecidableEq

/-- Entry index a tag speaks about, if any. -/
def tagIndex : DictRead → Option Nat
  | DictRead.hashF i => some i
  | DictRead.keyF i => some i
  | DictRead.valF i => some i
  | _ => none

/-- Reinterpretation of an unsigned 32-bit read as a signed value, as
`ctypes.c_int(hash_code).value` does. -/
def cInt32 (h : Nat) : Int :=
  if h % 4294967296 < 2147483648 then ((h % 4294967296 : Nat) : Int)
  else ((h % 4294967296 : Nat) : Int) - 4294967296

/-- Object header size (`Offsets.OBJ_FIELDS_OFF_X64` = 0x10,
`OBJ_FIELDS_OFF_X86` = 0x8). -/
def objFieldsOff (m : Accessor) : Nat := if m.is_64 then 0x10 else 0x8

/-- Address of the dictionary's entries-array pointer field. -/
def dictEntriesAddr (m : Accessor) (d : Nat) : Nat :=
  d + objFieldsOff m + (if m.is_64 then 0x8 else 0x4)

/-- Address of the dictionary's count field. -/
def dictCountAddr (m : Accessor) (d : Nat) : Nat :=
  d + objFieldsOff m + (if m.is_64 then 0x10 else 0x8)

/-- First entry's address inside the entries array
(`IL2CPP_ARRAY_VECTOR_OFF_X64` = 0x20, `_X86` = 0x10). -/
def dictEntriesBase (m : Accessor) (ea : Nat) : Nat :=
  ea + (if m.is_64 then 0x20 else 0x10)

/-- Entry stride: 0x18 bytes on 64-bit, 0x10 on 32-bit. -/
def dictEntrySize (m : Accessor) : Nat := if m.is_64 then 0x18 else 0x10

/-- Address of entry i (its hash field). -/
def dictEntryAddr (m : Accessor) (ea i : Nat) : Nat :=
  dictEntriesBase m ea + i * dictEntrySize m

/-- Per-entry loop of `_get_default_outfit_from_dict`: read the hash, skip the
entry when its signed value is negative (never touching the key), otherwise
read the key and, when it is 0, return the value field; any failing read skips
to the next entry. -/
def dictLoop (m : Accessor) (w : Bool) (b e : Nat) : List Nat → List DictRead → Nat × List DictRead
  | [], log => (0, log)
  | i :: rest, log =>
    match m.readU32 (b + i * e) with
    | none => dictLoop m w b e rest (log ++ [DictRead.hashF i])
    | some h =>
      if cInt32 h < 0 then dictLoop m w b e rest (log ++ [DictRead.hashF i])
      else
        match m.readU32 (b + i * e + 0x8) with
        | none => dictLoop m w b e rest (log ++ [DictRead.hashF i, DictRead.keyF i])
        | some k =>
          if k = 0 then
            match m.read_ptr (b + i * e + (if w then 0x10 else 0x0C)) with
            | none =>
              dictLoop m w b e rest (log ++ [DictRead.hashF i, DictRead.keyF i, DictRead.valF i])
            | some v => (v, log ++ [DictRead.hashF i, DictRead.keyF i, DictRead.valF i])
          else dictLoop m w b e rest (log ++ [DictRead.hashF i, DictRead.keyF i])

/-- Embedding of `AmongUsDataService._get_default_outfit_from_dict`
(data_service.py lines 674-700), instrumented with the tag list of reads: a
null dictionary, a failed or null entries-array read, or a failed or
non-positive count short-circuit to 0; otherwise at most `min(count, 16)`
entries are walked. -/
def get_default_outfit_from_dict (m : Accessor) (dict_ptr : Nat) : Nat × List DictRead :=
  if dict_ptr = 0 then (0, [])
  else
    match m.read_ptr (dictEntriesAddr m dict_ptr) with
    | none => (0, [DictRead.entriesArr])
    | some ea =>
      match m.readI32 (dictCountAddr m dict_ptr) with
      | none => (0, [DictRead.entriesArr, DictRead.countF])
      | some c =>
        if ea = 0 ∨ c ≤ 0 then (0, [DictRead.entriesArr, DictRead.countF])
        else
          dictLoop m m.is_64 (dictEntriesBase m ea) (dictEntrySize m)
            (List.range (min c.toNat 16)) [DictRead.entriesArr, DictRead.countF]

theorem get_default_outfit_unfold (m : Accessor) (d ea : Nat) (c : Int) (hd0 : d ≠ 0)
    (hea : m.read_ptr (dictEntriesAddr m d) = some ea)
    (hc : m.readI32 (dictCountAddr m d) = some c) (hea0 : ea ≠ 0) (hcpos : 0 < c) :
    get_default_outfit_from_dict m d =
      dictLoop m m.is_64 (dictEntriesBase m ea) (dictEntrySize m)
        (List.range (min c.toNat 16)) [DictRead.entriesArr, DictRead.countF] := by
  unfold get_default_outfit_from_dict
  rw [if_neg hd0, hea, hc]
  show (if ea = 0 ∨ c ≤ 0 then ((0 : Nat), [DictRead.entriesArr, DictRead.countF])
      else dictLoop m m.is_64 (dictEntriesBase m ea) (dictEntrySize m)
        (List.range (min c.toNat 16)) [DictRead.entriesArr, DictRead.countF]) = _
  rw [if_neg]
  push_neg
  exact ⟨hea0, by omega⟩

theorem dictLoop_scope (m : Accessor) (w : Bool) (b e : Nat) (ixs : List Nat)
    (log : List DictRead) (tg : DictRead) (htg : tg ∈ (dictLoop m w b e ixs log).2) :
    tg ∈ log ∨ ∃ i ∈ ixs,
      tg = DictRead.hashF i ∨ tg = DictRead.keyF i ∨ tg = DictRead.valF i := by
  induction ixs generalizing log with
  | nil =>
    exact Or.inl htg
  | cons i rest ih =>
    rw [dictLoop] at htg
    have hstep : ∀ t : List DictRead,
        (∀ x ∈ t, x = DictRead.hashF i ∨ x = DictRead.keyF i ∨ x = DictRead.valF i) →
        tg ∈ log ++ t →
        tg ∈ log ∨ ∃ j ∈ i :: rest,
          tg = DictRead.hashF j ∨ tg = DictRead.keyF j ∨ tg = DictRead.valF j := by
      intro t ht hmem
      rcases List.mem_append.1 hmem with hl | hr
      · exact Or.inl hl
      · exact Or.inr ⟨i, List.mem_cons_self i rest, ht tg hr⟩
    have hrec : ∀ t : List DictRead,
        (∀ x ∈ t, x = DictRead.hashF i ∨ x = DictRead.keyF i ∨ x = DictRead.valF i) →
        tg ∈ (dictLoop m w b e rest (log ++ t)).2 →
        tg ∈ log ∨ ∃ j ∈ i :: rest,
          tg = DictRead.hashF j ∨ tg = DictRead.keyF j ∨ tg = DictRead.valF j := by
      intro t ht hmem
      rcases ih (log ++ t) hmem with hl | ⟨j, hj, hjt⟩
      · exact hstep t ht hl
      · exact Or.inr ⟨j, List.mem_cons_of_mem i hj, hjt⟩
    revert htg
    split
    · intro htg
      exact hrec [DictRead.hashF i] (by intro x hx; simp at hx; simp [hx]) htg
    · split
      · intro htg
        exact hrec [DictRead.hashF i] (by intro x hx; simp at hx; simp [hx]) htg
      · split
        · intro htg
          exact hrec [DictRead.hashF i, DictRead.keyF i]
            (by intro x hx; rcases List.mem_cons.1 hx with h | h <;> simp_all) htg
        · split
          · split
            · intro htg
              exact hrec [DictRead.hashF i, DictRead.keyF i, DictRead.valF i]
                (by intro x hx
                    rcases List.mem_cons.1 hx with h | h
                    · simp [h]
                    · rcases List.mem_cons.1 h with h2 | h2 <;> simp_all) htg
            · intro htg
              exact hstep [DictRead.hashF i, DictRead.keyF i, DictRead.valF i]
                (by intro x hx
                    rcases List.mem_cons.1 hx with h | h
                    · simp [h]
                    · rcases List.mem_cons.1 h with h2 | h2 <;> simp_all) htg
          · intro htg
            exact hrec [DictRead.hashF i, DictRead.keyF i]
              (by intro x hx; rcases List.mem_cons.1 hx with h | h <;> simp_all) htg

theorem dictLoop_skip_neg (m : Accessor) (w : Bool) (b e i hsh : Nat)
    (hh : m.readU32 (b + i * e) = some hsh) (hneg : cInt32 hsh < 0) (ixs : List Nat)
    (log : List DictRead) (hlog : DictRead.keyF i ∉ log) :
    DictRead.keyF i ∉ (dictLoop m w b e ixs log).2 := by
  induction ixs generalizing log with
  | nil => exact hlog
  | cons j rest ih =>
    rw [dictLoop]
    split
    · refine ih _ ?_
      intro hmem
      rcases List.mem_append.1 hmem with hl | hr
      · exact hlog hl
      · simp at hr
    · rename_i h' hh'
      split
      · refine ih _ ?_
        intro hmem
        rcases List.mem_append.1 hmem with hl | hr
        · exact hlog hl
        · simp at hr
      · rename_i hneg'
        have hji : j ≠ i := by
          intro hj
          subst hj
          rw [hh] at hh'
          cases hh'
          exact hneg' hneg
        have hnotk : DictRead.keyF i ∉
            [DictRead.hashF j, DictRead.keyF j, DictRead.valF j] := by
          intro hmem
          rcases List.mem_cons.1 hmem with h1 | h1
          · cases h1
          · rcases List.mem_cons.1 h1 with h2 | h2
            · cases h2
              exact hji rfl
            · rcases List.mem_cons.1 h2 with h3 | h3
              · cases h3
              · cases h3
        have hnotk2 : DictRead.keyF i ∉ [DictRead.hashF j, DictRead.keyF j] := by
          intro hmem
          exact hnotk (by
            rcases List.mem_cons.1 hmem with h1 | h1
            · rw [h1]; exact List.mem_cons_self _ _
            · rcases List.mem_cons.1 h1 with h2 | h2
              · rw [h2]
                exact List.mem_cons_of_mem _ (List.mem_cons_self _ _)
              · cases h2)
        split
        · refine ih _ ?_
          intro hmem
          rcases List.mem_append.1 hmem with hl | hr
          · exact hlog hl
          · exact hnotk2 hr
        · split
          · split
            · refine ih _ ?_
              intro hmem
              rcases List.mem_append.1 hmem with hl | hr
              · exact hlog hl
              · exact hnotk hr
            · intro hmem
              rcases List.mem_append.1 hmem with hl | hr
              · exact hlog hl
              · exact hnotk hr
          · refine ih _ ?_
            intro hmem
            rcases List.mem_append.1 hmem with hl | hr
            · exact hlog hl
            · exact hnotk2 hr

/-- Predicate the decode loop accepts an (readable) entry on: non-negative
signed hash and key equal to 0 (the looked-up outfit key). -/
def entryMatches (m : Accessor) (b e i : Nat) : Bool :=
  decide (0 ≤ cInt32 ((m.readU32 (b + i * e)).getD 0)) &&
    ((m.readU32 (b + i * e + 0x8)).getD 1 == 0)

theorem dictLoop_total (m : Accessor) (w : Bool) (b e : Nat)
    (hU : ∀ a, m.readU32 a ≠ none) (hP : ∀ a, m.read_ptr a ≠ none) (ixs : List Nat)
    (log : List DictRead) :
    (dictLoop m w b e ixs log).1 =
      match ixs.find? (entryMatches m b e) with
      | some i => (m.read_ptr (b + i * e + (if w then 0x10 else 0x0C))).getD 0
      | none => 0 := by
  induction ixs generalizing log with
  | nil => rfl
  | cons i rest ih =>
    rw [dictLoop, List.find?]
    split
    · rename_i hh
      exact absurd hh (hU _)
    · rename_i h hh
      split
      · rename_i hneg
        have hm : entryMatches m b e i = false := by
          simp only [entryMatches, hh, Option.getD_some]
          rw [decide_eq_false (not_le.2 hneg)]
          rw [Bool.false_and]
        rw [hm]
        exact ih _
      · rename_i hneg
        split
        · rename_i hk
          exact absurd hk (hU _)
        · rename_i k hk
          split
          · rename_i hk0
            have hm : entryMatches m b e i = true := by
              simp only [entryMatches, hh, hk, Option.getD_some]
              rw [decide_eq_true (not_lt.1 hneg)]
              simp [hk0]
            rw [hm]
            split
            · rename_i hv
              exact absurd hv (hP _)
            · rename_i v hv
              show v = (m.read_ptr (b + i * e + if w then 0x10 else 0x0C)).getD 0
              rw [hv]
              rfl
          · rename_i hk0
            have hm : entryMatches m b e i = false := by
              simp only [entryMatches, hh, hk, Option.getD_some]
              simp [hk0]
            rw [hm]
            exact ih _

/-- C7: the dictionary decode inspects at most `min(count, 16)` entries (every
logged entry-field read has an index below that bound); an entry whose stored
hash reads back with a negative signed value is skipped before any key
comparison — its key field is never read; and with a fully readable backing
memory the result is the value field of the first non-skipped entry whose key
equals the looked-up key 0 (0 when none matches). -/
theorem dict_decode_spec :
    (∀ (m : Accessor) (d ea : Nat) (c : Int) (tg : DictRead) (i : Nat), d ≠ 0 →
      m.read_ptr (dictEntriesAddr m d) = some ea → m.readI32 (dictCountAddr m d) = some c →
      ea ≠ 0 → 0 < c → tg ∈ (get_default_outfit_from_dict m d).2 → tagIndex tg = some i →
      i < min c.toNat 16) ∧
    (∀ (m : Accessor) (d ea : Nat) (c : Int) (i hsh : Nat), d ≠ 0 →
      m.read_ptr (dictEntriesAddr m d) = some ea → m.readI32 (dictCountAddr m d) = some c →
      ea ≠ 0 → 0 < c → m.readU32 (dictEntryAddr m ea i) = some hsh → cInt32 hsh < 0 →
      DictRead.keyF i ∉ (get_default_outfit_from_dict m d).2) ∧
    (∀ (m : Accessor) (d ea : Nat) (c : Int),
      (∀ a, m.readU32 a ≠ none) → (∀ a, m.read_ptr a ≠ none) → d ≠ 0 →
      m.read_ptr (dictEntriesAddr m d) = some ea → m.readI32 (dictCountAddr m d) = some c →
      ea ≠ 0 → 0 < c →
      (get_default_outfit_from_dict m d).1 =
        match (List.range (min c.toNat 16)).find?
            (entryMatches m (dictEntriesBase m ea) (dictEntrySize m)) with
        | some i => (m.read_ptr (dictEntriesBase m ea + i * dictEntrySize m +
            (if m.is_64 then 0x10 else 0x0C))).getD 0
        | none => 0) := by
  refine ⟨?_, ?_, ?_⟩
  · intro m d ea c tg i hd0 hea hc hea0 hcpos htg hti
    rw [get_default_outfit_unfold m d ea c hd0 hea hc hea0 hcpos] at htg
    rcases dictLoop_scope m m.is_64 (dictEntriesBase m ea) (dictEntrySize m)
        (List.range (min c.toNat 16)) [DictRead.entriesArr, DictRead.countF] tg htg with
      hl | ⟨j, hj, hjt⟩
    · rcases List.mem_cons.1 hl with h1 | h1
      · rw [h1] at hti
        cases hti
      · rcases List.mem_cons.1 h1 with h2 | h2
        · rw [h2] at hti
          cases hti
        · cases h2
    · have hij : i = j := by
        rcases hjt with h | h | h <;> rw [h] at hti <;> cases hti <;> rfl
      rw [hij]
      exact List.mem_range.1 hj
  · intro m d ea c i hsh hd0 hea hc hea0 hcpos hh hneg
    rw [get_default_outfit_unfold m d ea c hd0 hea hc hea0 hcpos]
    refine dictLoop_skip_neg m m.is_64 (dictEntriesBase m ea) (dictEntrySize m) i hsh hh hneg
      (List.range (min c.toNat 16)) [DictRead.entriesArr, DictRead.countF] ?_
    intro hmem
    rcases List.mem_cons.1 hmem with h1 | h1
    · cases h1
    · rcases List.mem_cons.1 h1 with h2 | h2
      · cases h2
      · cases h2
  · intro m d ea c hU hP hd0 hea hc hea0 hcpos
    rw [get_default_outfit_unfold m d ea c hd0 hea hc hea0 hcpos]
    exact dictLoop_total m m.is_64 (dictEntriesBase m ea) (dictEntrySize m) hU hP
      (List.range (min c.toNat 16)) [DictRead.entriesArr, DictRead.countF]

/-- Concrete 64-bit memory realising the spec's dictionary example: dictionary
object at 0x4000, entries array at 0x5000, count 2; entry 0 has stored hash
0xFFFFFFFF (signed -1), entry 1 has hash 5, key 0 and value 0x1000. -/
def dictMem : Accessor where
  base := 0
  is_64 := true
  read_ptr := fun a => some (if a = 0x4018 then 0x5000 else if a = 0x5048 then 0x1000 else 0)
  readU32 := fun a =>
    some (if a = 0x5020 then 0xFFFFFFFF else if a = 0x5038 then 5
          else if a = 0x5040 then 0 else 7)
  readI32 := fun a => some (if a = 0x4020 then 2 else 0)
  readF32 := fun _ => none
  heap_regions := []

/-- Witness for `dict_decode_spec` at the spec's example: the lookup yields
0x1000, the negative-hash entry's key field is never read, and every inspected
entry index is below `min(2, 16)`. -/
theorem dict_decode_spec_witness :
    DictRead.keyF 0 ∉ (get_default_outfit_from_dict dictMem 0x4000).2 ∧
    (get_default_outfit_from_dict dictMem 0x4000).1 = 0x1000 ∧
    (∀ tg ∈ (get_default_outfit_from_dict dictMem 0x4000).2, ∀ i, tagIndex tg = some i →
      i < min ((2 : Int)).toNat 16) := by
  refine ⟨?_, ?_, ?_⟩
  · exact dict_decode_spec.2.1 dictMem 0x4000 0x5000 2 0 0xFFFFFFFF (by decide) (by decide)
      (by decide) (by decide) (by decide) (by decide) (by decide)
  · have h3 := dict_decode_spec.2.2 dictMem 0x4000 0x5000 2
      (fun a => by simp [dictMem]) (fun a => by simp [dictMem]) (by decide) (by decide)
      (by decide) (by decide) (by decide)
    rw [h3]
    decide
  · intro tg htg i hti
    exact dict_decode_spec.1 dictMem 0x4000 0x5000 2 tg i (by decide) (by decide) (by decide)
      (by decide) (by decide) htg hti

end AmongUsDataService

namespace AmongUsDataService

/-- Embedding of `AmongUsDataService._get_player_position` (data_service.py
lines 655-672): follow the NetTransform pointer (`PC_FIELDS_NetTransform` =
0x90), read the `lastPosition` pair (offset 0x3C), and when it is exactly
(0.0, 0.0) fall back to the `lastPosSent` pair (offset 0x44); any failed read
or null pointer yields None.  Float reads are modelled as exact rationals. -/
def get_player_position (m : Accessor) (pc : Nat) : Option (ℚ × ℚ) :=
  if pc = 0 then none
  else
    match m.read_ptr (pc + objFieldsOff m + 0x90) with
    | none => none
    | some nt =>
      if nt = 0 then none
      else
        match m.readF32 (nt + objFieldsOff m + 0x3C),
            m.readF32 (nt + objFieldsOff m + 0x3C + 4) with
        | some x, some y =>
          if x = 0 ∧ y = 0 then
            match m.readF32 (nt + objFieldsOff m + 0x44),
                m.readF32 (nt + objFieldsOff m + 0x44 + 4) with
            | some x2, some y2 => some (x2, y2)
            | _, _ => none
          else some (x, y)
        | _, _ => none

/-- C8: the position routine returns the primary (`lastPosition`) pair when it
is not exactly (0.0, 0.0); when the primary pair reads exactly (0.0, 0.0) it
returns the secondary (`lastPosSent`) pair instead. -/
theorem get_player_position_spec (m : Accessor) (pc nt : Nat) (x y : ℚ)
    (hpc : pc ≠ 0) (hnt : m.read_ptr (pc + objFieldsOff m + 0x90) = some nt) (hnt0 : nt ≠ 0)
    (hx : m.readF32 (nt + objFieldsOff m + 0x3C) = some x)
    (hy : m.readF32 (nt + objFieldsOff m + 0x3C + 4) = some y) :
    (¬(x = 0 ∧ y = 0) → get_player_position m pc = some (x, y)) ∧
    (x = 0 → y = 0 → ∀ x2 y2 : ℚ,
      m.readF32 (nt + objFieldsOff m + 0x44) = some x2 →
      m.readF32 (nt + objFieldsOff m + 0x44 + 4) = some y2 →
      get_player_position m pc = some (x2, y2)) := by
  constructor
  · intro hne
    unfold get_player_position
    rw [if_neg hpc, hnt]
    show (if nt = 0 then none
        else
          match m.readF32 (nt + objFieldsOff m + 0x3C),
              m.readF32 (nt + objFieldsOff m + 0x3C + 4) with
          | some x, some y =>
            if x = 0 ∧ y = 0 then
              match m.readF32 (nt + objFieldsOff m + 0x44),
                  m.readF32 (nt + objFieldsOff m + 0x44 + 4) with
              | some x2, some y2 => some (x2, y2)
              | _, _ => none
            else some (x, y)
          | _, _ => none) = some (x, y)
    rw [if_neg hnt0, hx, hy]
    show (if x = 0 ∧ y = 0 then
        match m.readF32 (nt + objFieldsOff m + 0x44),
            m.readF32 (nt + objFieldsOff m + 0x44 + 4) with
        | some x2, some y2 => some (x2, y2)
        | _, _ => none
      else some (x, y)) = some (x, y)
    rw [if_neg hne]
  · intro hx0 hy0 x2 y2 hx2 hy2
    unfold get_player_position
    rw [if_neg hpc, hnt]
    show (if nt = 0 then none
        else
          match m.readF32 (nt + objFieldsOff m + 0x3C),
              m.readF32 (nt + objFieldsOff m + 0x3C + 4) with
          | some x, some y =>
            if x = 0 ∧ y = 0 then
              match m.readF32 (nt + objFieldsOff m + 0x44),
                  m.readF32 (nt + objFieldsOff m + 0x44 + 4) with
          | some x2, some y2 => some (x2, y2)
              | _, _ => none
            else some (x, y)
          | _, _ => none) = some (x2, y2)
    rw [if_neg hnt0, hx, hy]
    show (if x = 0 ∧ y = 0 then
        match m.readF32 (nt + objFieldsOff m + 0x44),
            m.readF32 (nt + objFieldsOff m + 0x44 + 4) with
        | some x2, some y2 => some (x2, y2)
        | _, _ => none
      else some (x, y)) = some (x2, y2)
    rw [if_pos ⟨hx0, hy0⟩, hx2, hy2]

/-- Concrete 64-bit memory for the C8 witness: a player-control object at
0x7000 whose NetTransform is 0x8000, primary position pair (0.0, 0.0) and
secondary pair (3.5, -2.25). -/
def posMem : Accessor where
  base := 0
  is_64 := true
  read_ptr := fun a => if a = 0x70A0 then some 0x8000 else none
  readU32 := fun _ => none
  readI32 := fun _ => none
  readF32 := fun a =>
    if a = 0x804C then some 0
    else if a = 0x8050 then some 0
    else if a = 0x8054 then some (7 / 2)
    else if a = 0x8058 then some (-9 / 4)
    else none
  heap_regions := []

/-- Witness for `get_player_position_spec`: a primary pair of (0.0, 0.0) with a
secondary pair (3.5, -2.25) yields (3.5, -2.25). -/
theorem get_player_position_spec_witness :
    get_player_position posMem 0x7000 = some (7 / 2, -9 / 4) :=
  (get_player_position_spec posMem 0x7000 0x8000 0 0 (by decide) (by decide) (by decide)
      (by decide) (by decide)).2 rfl rfl (7 / 2) (-9 / 4)
    (by norm_num [posMem, objFieldsOff]) (by norm_num [posMem, objFieldsOff])

end AmongUsDataService

namespace MetaIndex

/-- Model of python `str.lower()` over the ASCII range: lowercase every
character. -/
def pyLower (s : String) : String := String.mk (s.data.map Char.toLower)

/-- Embedding of `MetaIndex.get_string_va` (meta.py lines 88-104) over a loaded
metadata document: `lits` is the string-literal list as (text, rva) pairs, the
result is paired with the updated lowercase-keyed cache; both the needle and
each stored text are lowercased before comparison, a hit returns the module
base plus the stored offset and caches it. -/
def get_string_va (base : Nat) (lits : List (String × Nat))
    (cache : List (String × Nat)) (needle : String) : Nat × List (String × Nat) :=
  match cache.find? (fun p => p.1 == pyLower needle) with
  | some p => (p.2, cache)
  | none =>
    match lits.find? (fun it => pyLower it.1 == pyLower needle) with
    | some it => (base + it.2, (pyLower needle, base + it.2) :: cache)
    | none => (0, cache)

/-- C9 (amended): `get_string_va` returns the module base plus the stored
offset of the *first* string-literal entry whose text matches the needle
*case-insensitively* (both sides lowercased), and 0 when no entry matches
case-insensitively.  (A cold cache is assumed; hits are cached by lowercased
needle.) -/
theorem get_string_va_spec (base : Nat) (lits : List (String × Nat)) (needle : String) :
    (get_string_va base lits [] needle).1 =
      match lits.find? (fun it => pyLower it.1 == pyLower needle) with
      | some it => base + it.2
      | none => 0 := by
  unfold get_string_va
  rcases h : lits.find? (fun it => pyLower it.1 == pyLower needle) with _ | it
  · rw [h]
    rfl
  · rw [h]
    rfl

/-- C9 counterexample: with the single literal entry ("Report", 0x40) and base
0x1000, the needle "report" matches no entry text exactly (the stored text is
"Report"), so the claim demands 0 — but the code lowercases both sides and
returns 0x1040. -/
theorem get_string_va_cex :
    (get_string_va 0x1000 [("Report", 0x40)] [] "report").1 = 0x1040 ∧
    ("Report" : String) ≠ "report" ∧ (0x1040 : Nat) ≠ 0 := by
  refine ⟨?_, by decide, by decide⟩
  decide

end MetaIndex

namespace CacheManager

/-- TTL-cache state of `CacheManager` (cache/manager.py): the per-type TTL map
and the store from (normalised type, subkey) to (expiry, value).  Subkeys and
values are modelled as naturals; deleting an entry sets the store to none. -/
structure CM where
  ttl : List (String × ℚ)
  store : String × Option Nat → Option (ℚ × Nat)

/-- Model of python `str.strip()`: drop surrounding whitespace. -/
def pyStrip (s : String) : String :=
  String.mk (((s.data.dropWhile fun c => c.isWhitespace).reverse.dropWhile
    fun c => c.isWhitespace).reverse)

/-- Embedding of `CacheManager._norm_type`: strip surrounding whitespace and
lowercase. -/
def norm_type (s : String) : String := MetaIndex.pyLower (pyStrip s)

/-- Embedding of `CacheManager.get_ttl`: configured TTL of a type, defaulting
to 0.0 when unset. -/
def get_ttl (c : CM) (t : String) : ℚ :=
  ((c.ttl.find? (fun p => p.1 == norm_type t)).map Prod.snd).getD 0

/-- Embedding of `CacheManager.get` (manager.py lines 19-32) at explicit
current time `now`: a missing entry yields none; a present entry whose type
has positive TTL and whose stored expiry has been reached is deleted and
yields none; otherwise the stored value is returned. -/
def get (c : CM) (now : ℚ) (t : String) (sub : Option Nat) : Option Nat × CM :=
  match c.store (norm_type t, sub) with
  | none => (none, c)
  | some (expires_at, v) =>
    if 0 < get_ttl c t ∧ expires_at ≤ now then
      (none, { c with store := fun k => if k = (norm_type t, sub) then none else c.store k })
    else (some v, c)

/-- Embedding of `CacheManager.set` (manager.py lines 34-39) at explicit
current time `now`: a positive TTL stores expiry now + ttl, otherwise expiry
0. -/
def set (c : CM) (now : ℚ) (t : String) (v : Nat) (sub : Option Nat) : CM :=
  { c with store := fun k =>
      if k = (norm_type t, sub) then
        some ((if 0 < get_ttl c t then now + get_ttl c t else 0), v)
      else c.store k }

/-- C10: after `set`, a `get` of the same type and subkey returns exactly the
stored value whenever the type's configured TTL is 0 or unset, at any later
time whatsoever; with a positive TTL, once the current time reaches the stored
expiry (set-time + TTL) the `get` returns none and the expired entry is
removed from the store. -/
theorem cache_ttl_spec :
    (∀ (c : CM) (t : String) (sub : Option Nat) (v : Nat) (now now2 : ℚ),
      get_ttl c t = 0 →
      (get (set c now t v sub) now2 t sub).1 = some v) ∧
    (∀ (c : CM) (t : String) (sub : Option Nat) (v : Nat) (now now2 : ℚ),
      0 < get_ttl c t → now + get_ttl c t ≤ now2 →
      (get (set c now t v sub) now2 t sub).1 = none ∧
      ((get (set c now t v sub) now2 t sub).2).store (norm_type t, sub) = none) := by
  have httl : ∀ (c : CM) (now : ℚ) (t t2 : String) (v : Nat) (sub : Option Nat),
      get_ttl (set c now t v sub) t2 = get_ttl c t2 := fun _ _ _ _ _ _ => rfl
  have hst : ∀ (c : CM) (t : String) (sub : Option Nat) (v : Nat) (now : ℚ),
      (set c now t v sub).store (norm_type t, sub) =
        some ((if 0 < get_ttl c t then now + get_ttl c t else 0), v) := by
    intro c t sub v now
    unfold set
    simp
  constructor
  · intro c t sub v now now2 h0
    unfold get
    split
    · rename_i heq
      rw [hst] at heq
      cases heq
    · rename_i expires_at v1 heq
      rw [hst] at heq
      cases heq
      rw [if_neg]
      rw [httl, h0]
      intro hcon
      exact absurd hcon.1 (lt_irrefl 0)
  · intro c t sub v now now2 hpos hexp
    have hcond : 0 < get_ttl (set c now t v sub) t ∧
        (if 0 < get_ttl c t then now + get_ttl c t else 0) ≤ now2 := by
      rw [httl]
      exact ⟨hpos, by rw [if_pos hpos]; exact hexp⟩
    constructor
    · unfold get
      split
      · rename_i heq
        exact absurd heq (by rw [hst]; intro hx; cases hx)
      · rename_i expires_at v1 heq
        rw [hst] at heq
        cases heq
        rw [if_pos hcond]
    · unfold get
      split
      · rename_i heq
        exact absurd heq (by rw [hst]; intro hx; cases hx)
      · rename_i expires_at v1 heq
        rw [hst] at heq
        cases heq
        rw [if_pos hcond]
        simp
end CacheManager

end AmongUs

namespace AmongUs.CacheManager

/-- Concrete cache for the C10 witness: type "players" has TTL 2 seconds, all
other types have no TTL configured; the store starts empty. -/
def cmEx : CM := CM.mk [("players", 2)] (fun _ => none)

/-- Witness for `cache_ttl_spec`: a type with no configured TTL still serves
its value 90 time units later; the TTL-2 type expires at set-time + 2 and the
entry is gone from the store. -/
theorem cache_ttl_spec_witness :
    (get_ttl cmEx "hud" = 0 ∧ (get (set cmEx 10 "hud" 5 none) 100 "hud" none).1 = some 5) ∧
    (0 < get_ttl cmEx "players" ∧ (10 : ℚ) + get_ttl cmEx "players" ≤ 12 ∧
      (get (set cmEx 10 "players" 7 (some 3)) 12 "players" (some 3)).1 = none ∧
      ((get (set cmEx 10 "players" 7 (some 3)) 12 "players" (some 3)).2).store
        (norm_type "players", some 3) = none) := by
  have h0 : get_ttl cmEx "hud" = 0 := by decide
  have hv : get_ttl cmEx "players" = 2 := by decide
  refine ⟨⟨h0, cache_ttl_spec.1 cmEx "hud" none 5 10 100 h0⟩, ?_, ?_, ?_, ?_⟩
  · rw [hv]
    norm_num
  · rw [hv]
    norm_num
  · exact (cache_ttl_spec.2 cmEx "players" (some 3) 7 10 12 (by rw [hv]; norm_num)
      (by rw [hv]; norm_num)).1
  · exact (cache_ttl_spec.2 cmEx "players" (some 3) 7 10 12 (by rw [hv]; norm_num)
      (by rw [hv]; norm_num)).2

end AmongUs.CacheManager
